import Mathlib

/-!
# terraform-provider-http: request execution and lifecycle phases

A shallow embedding of `http/data_source.go` (`dataSourceRead`) and
`http/resource.go` (`httpRequest` and its three callers), followed by the
properties of the specification that concern them.

Modelling conventions

* A Go `string` is a Lean `String` in which every character stands for one
  byte; a Go `[]byte` is a `List UInt8`; the conversion `string(bytes)` is
  `bytesToString`.
* A Go `error` is the text of its `Error()` method.
* A Go `map[string]T` that is only iterated (`request_headers`) is the list of
  its entries in the order in which `range` yields them: the keys are pairwise
  distinct and the order is arbitrary, so a statement over all such lists
  covers every map and every iteration order.
* The outside world (`http.NewRequest` validation, `client.Do`, the clock, the
  UUID generator) is a record of oracles, `Env`.
* `schema.ResourceData` is a record of the fields the code reads and writes;
  `d.Set` and `d.SetId` are field updates.
* Every operation returns its error (or none), the final record and the log of
  the effects it performed (`client.Do` calls and `ioutil.ReadAll` calls).
-/

namespace TerraformHttp

/-! ## Go strings and bytes -/

/-- Go conversion `string(bytes)`: the string holds the same bytes, one
character per byte. -/
def bytesToString (bytes : List UInt8) : String :=
  String.mk (bytes.map fun b => Char.ofNat b.toNat)

/-- Go conversion `[]byte(s)`, the inverse reading of `bytesToString`. -/
def stringToBytes (s : String) : List UInt8 :=
  s.data.map fun c => UInt8.ofNat c.toNat

/-! ## `net/textproto` and `net/http` headers (Go standard library) -/

/-- Go `textproto.validHeaderFieldByte`: the token characters of RFC 7230
(letters, digits and ``!#$%&'*+-.^_`|~``). -/
def validHeaderFieldByte (c : Char) : Bool :=
  let n := c.toNat
  (48 ≤ n && n ≤ 57) || (65 ≤ n && n ≤ 90) || (97 ≤ n && n ≤ 122) ||
    [33, 35, 36, 37, 38, 39, 42, 43, 45, 46, 94, 95, 96, 124, 126].contains n

/-- Go `const toLower = 'a' - 'A'`. -/
def toLower : Nat := 32

/-- The canonicalising loop of Go `textproto.canonicalMIMEHeaderKey`: a letter
at the start or after a hyphen becomes upper case, every other letter lower
case; `upper` is the loop variable of the same name. -/
def canonicalizeFrom : Bool → List Char → List Char
  | _, [] => []
  | upper, c :: cs =>
    let n := c.toNat
    let c1 :=
      if upper && (97 ≤ n && n ≤ 122) then Char.ofNat (n - toLower)
      else if !upper && (65 ≤ n && n ≤ 90) then Char.ofNat (n + toLower)
      else c
    c1 :: canonicalizeFrom (c1 == '-') cs

/-- Go `textproto.CanonicalMIMEHeaderKey`: a key holding a byte that is not a
header-field byte is returned unchanged, any other key is canonicalised. -/
def CanonicalMIMEHeaderKey (s : String) : String :=
  if s.data.all validHeaderFieldByte then String.mk (canonicalizeFrom true s.data) else s

/-- Go `http.Header`, a `map[string][]string`, as the list of its entries. -/
structure Header where
  entries : List (String × List String)
deriving DecidableEq, Repr

/-- The empty header map, `make(http.Header)` or `http.Header{}`. -/
def Header.empty : Header := ⟨[]⟩

/-- Go `Header.Set`: `h[CanonicalMIMEHeaderKey(key)] = []string{value}`. -/
def Header.Set (h : Header) (key value : String) : Header :=
  let k := CanonicalMIMEHeaderKey key
  ⟨(k, [value]) :: h.entries.filter fun p => p.1 != k⟩

/-- The map lookup `h[k]`, with the key taken as it is. -/
def Header.find (h : Header) (k : String) : Option (List String) :=
  h.entries.lookup k

/-- Go `Header.Get`: the first value stored under the canonical form of `key`,
or the empty string. -/
def Header.Get (h : Header) (key : String) : String :=
  match h.find (CanonicalMIMEHeaderKey key) with
  | some (v :: _) => v
  | _ => ""

/-- The names under which the header map holds an entry. -/
def Header.keys (h : Header) : List String :=
  h.entries.map Prod.fst

/-- Go `http.Request`, the fields the provider sets. -/
structure Request where
  Method : String
  URL : String
  Header : Header
  Body : Option String
deriving DecidableEq, Repr

/-- Go `http.Response`; `Body` is what `ioutil.ReadAll(resp.Body)` yields, the
bytes or the text of the read error. -/
structure Response where
  StatusCode : Int
  Header : Header
  Body : Except String (List UInt8)

/-! ## `time.Time` rendering (Go standard library) -/

/-- A wall clock reading in UTC, as returned by `time.Now().UTC()`. -/
structure Time where
  year : Nat
  month : Nat
  day : Nat
  hour : Nat
  minute : Nat
  second : Nat
  nanosecond : Nat
deriving DecidableEq, Repr

/-- Decimal rendering of `n`, zero-padded on the left to `w` digits. -/
def zeroPad (w n : Nat) : String :=
  let s := toString n
  String.mk (List.replicate (w - s.length) '0') ++ s

/-- The layout element `.999999999`: the nanoseconds as a fraction with the
trailing zeros removed, and nothing at all when the fraction is zero. -/
def fractionText (ns : Nat) : String :=
  let ds := ((zeroPad 9 ns).data.reverse.dropWhile fun c => c == '0').reverse
  if ds.isEmpty then "" else "." ++ String.mk ds

/-- Go `Time.String` of a UTC time without monotonic reading: the layout
`2006-01-02 15:04:05.999999999 -0700 MST`. -/
def Time.String (t : Time) : String :=
  zeroPad 4 t.year ++ "-" ++ zeroPad 2 t.month ++ "-" ++ zeroPad 2 t.day ++ " " ++
    zeroPad 2 t.hour ++ ":" ++ zeroPad 2 t.minute ++ ":" ++ zeroPad 2 t.second ++
    fractionText t.nanosecond ++ " +0000 UTC"

/-! ## The outside world -/

/-- The oracles of one invocation. -/
structure Env where
  /-- The error of `http.NewRequest(method, url, nil)`, if it fails (invalid
  method token, unparsable URL). -/
  newRequestError : String → String → Option String
  /-- The outcome of `client.Do(req)`: a response or the transport error. -/
  clientDo : Request → Except String Response
  /-- The reading `time.Now().UTC()`. -/
  now : Time
  /-- The text `uuid.New().String()`. -/
  newUUID : String

/-- Go `http.NewRequest(method, url, nil)`: on success a request with the
method (`GET` when empty), the URL, an empty header map and no body. -/
def NewRequest (env : Env) (method url : String) : Except String Request :=
  match env.newRequestError method url with
  | some err => .error err
  | none => .ok ⟨if method = "" then "GET" else method, url, Header.empty, none⟩

/-- An effect performed by an operation. -/
inductive Event where
  /-- A call `client.Do(req)`. -/
  | Do (req : Request)
  /-- A call `ioutil.ReadAll(resp.Body)`. -/
  | ReadAll
deriving DecidableEq, Repr

/-- What an operation leaves behind: the returned error (`none` for `nil`),
the record after the call and the effects performed, oldest first. -/
structure Outcome (σ : Type) where
  err : Option String
  d : σ
  log : List Event

/-- The requests issued, in order. -/
def requestsOf : List Event → List Request
  | [] => []
  | .Do req :: es => req :: requestsOf es
  | .ReadAll :: es => requestsOf es

/-- The loop `for name, value := range headers { req.Header.Set(name, value) }`
over the entries in iteration order. -/
def setHeaders (req : Request) (headers : List (String × String)) : Request :=
  headers.foldl (fun r nv => { r with Header := r.Header.Set nv.1 nv.2 }) req

/-- The statement `if len(body) != 0 { req.Body = ... }`. -/
def setBody (req : Request) (body : String) : Request :=
  if body.length ≠ 0 then { req with Body := some body } else req

/-! ## The `action` attribute of the resource -/

/-- One phase block of the `action` attribute (`createSchema`, `updateSchema`,
`deleteSchema`; the delete block declares no `body` and `headers`, which then
stay at their zero values). -/
structure PhaseBlock where
  url : String
  method : String
  response_status_code : Int
  request_headers : List (String × String)
  request_body : String
  body : String
  headers : List (String × String)
deriving DecidableEq, Repr

/-- The single element of the `action` list: three optional phase blocks
(each a list of at most one item). -/
structure ActionBlock where
  create : Option PhaseBlock
  update : Option PhaseBlock
  delete : Option PhaseBlock
deriving DecidableEq, Repr

/-- The `action` argument of `httpRequest`: its three callers pass the
literals `"create"`, `"update"` and `"delete"`. -/
inductive Phase where
  | create
  | update
  | delete
deriving DecidableEq, Repr

/-- The string passed by the caller. -/
def Phase.name : Phase → String
  | .create => "create"
  | .update => "update"
  | .delete => "delete"

/-! ## Helper functions of the package defined outside these two files -/

/-- The helpers `isContentTypeAllowed`, `flattenAction` and
`flattenResponseHeaders`: `data_source.go` and `resource.go` call them and do
not define them, so the operations take them as parameters. -/
structure Helpers where
  isContentTypeAllowed : String → Bool
  flattenAction : ActionBlock → List UInt8 → Header → Phase → ActionBlock
  flattenResponseHeaders : Header → List (String × String)

/-- The part of a `Content-Type` value before the first `;`. -/
def beforeSemicolon (cs : List Char) : List Char :=
  cs.takeWhile fun c => c != ';'

/-- The parameters of a `Content-Type` value: the pieces after each `;`. -/
def parametersOf : List Char → List (List Char)
  | [] => []
  | c :: cs =>
    if c = ';' then beforeSemicolon cs :: parametersOf cs else parametersOf cs

/-- Removal of the blanks around a piece of a header value. -/
def trimBlanks (cs : List Char) : List Char :=
  ((cs.dropWhile Char.isWhitespace).reverse.dropWhile Char.isWhitespace).reverse

/-- The declared charset, lower-cased: the value of the first parameter named
`charset`, or nothing when no such parameter is given. -/
def declaredCharset (cs : List Char) : Option (List Char) :=
  ((parametersOf cs).map fun p => (trimBlanks p).map Char.toLower).findSome? fun p =>
    if "charset=".data.isPrefixOf p then some (p.drop 8) else none

/-- Modelled from the spec: `isContentTypeAllowed` is not among the source
files. Section 4.1: an empty value is rejected; the media type is the part
before the parameters; the allow-list is the `text/` family, `application/json`,
`application/xml` and `application/javascript`; the declared charset is
checked literally and a charset other than UTF-8 is rejected. -/
def isContentTypeAllowed (contentType : String) : Bool :=
  let mediaType := (trimBlanks (beforeSemicolon contentType.data)).map Char.toLower
  let listed :=
    ("text/".data.isPrefixOf mediaType) ||
      [ "application/json".data, "application/xml".data,
        "application/javascript".data ].contains mediaType
  let charsetOk :=
    match declaredCharset contentType.data with
    | none => true
    | some cs => cs == "utf-8".data
  contentType != "" && listed && charsetOk

/-! ## `schema.ResourceData` -/

/-- The record of the `http` data source (schema of `httpDataSource`). -/
structure DataSourceData where
  id : String
  url : String
  method : String
  request_headers : List (String × String)
  request_body : String
  response_status_code : Int
  body : String
  headers : List (String × String)
deriving DecidableEq, Repr

/-- The record of the `http` resource (schema of `httpResource`); `changed`
lists the keys for which the host reports a difference between the prior
state and the configuration. -/
structure ResourceData where
  id : String
  triggers : List (String × String)
  action : ActionBlock
  changed : List String
deriving DecidableEq, Repr

/-- Go `d.HasChange(key)`. -/
def ResourceData.HasChange (d : ResourceData) (key : String) : Bool :=
  d.changed.contains key

/-- The block at `action.0.<phase>.0`, if the configuration has one. -/
def ResourceData.block (d : ResourceData) : Phase → Option PhaseBlock
  | .create => d.action.create
  | .update => d.action.update
  | .delete => d.action.delete

/-- Go `d.Get("action.0.<phase>.0.method").(string)`; an absent block gives the
zero value. -/
def ResourceData.method (d : ResourceData) (action : Phase) : String :=
  match d.block action with
  | some b => b.method
  | none => ""

/-- Go `d.Get("action.0.<phase>.0.url").(string)`. -/
def ResourceData.url (d : ResourceData) (action : Phase) : String :=
  match d.block action with
  | some b => b.url
  | none => ""

/-- Go `d.Get("action.0.<phase>.0.request_headers")`, in iteration order. -/
def ResourceData.requestHeaders (d : ResourceData) (action : Phase) : List (String × String) :=
  match d.block action with
  | some b => b.request_headers
  | none => []

/-- Go `d.Get("action.0.<phase>.0.request_body").(string)`. -/
def ResourceData.requestBody (d : ResourceData) (action : Phase) : String :=
  match d.block action with
  | some b => b.request_body
  | none => ""

/-- Go `d.Get("action.0.<phase>.0.response_status_code").(int)`. -/
def ResourceData.statusCode (d : ResourceData) (action : Phase) : Int :=
  match d.block action with
  | some b => b.response_status_code
  | none => 0

/-- Go `d.Set("action", v)`. -/
def ResourceData.SetAction (d : ResourceData) (v : ActionBlock) : ResourceData :=
  { d with action := v }

/-- Go `d.SetId(v)`. -/
def ResourceData.SetId (d : ResourceData) (v : String) : ResourceData :=
  { d with id := v }

/-! ## `data_source.go` -/

/-- Go `dataSourceRead`. -/
def dataSourceRead (h : Helpers) (env : Env) (d : DataSourceData) : Outcome DataSourceData :=
  let url := d.url
  let method := d.method
  let headers := d.request_headers
  let body := d.request_body
  let statusCode := d.response_status_code
  match NewRequest env method url with
  | .error err => ⟨some ("Error creating request: " ++ err), d, []⟩
  | .ok req0 =>
    let req := setBody (setHeaders req0 headers) body
    match env.clientDo req with
    | .error err => ⟨some ("Error making a request: " ++ err), d, [.Do req]⟩
    | .ok resp =>
      match resp.Body with
      | .error err =>
        ⟨some ("Error while reading response body. " ++ err), d, [.Do req, .ReadAll]⟩
      | .ok bytes =>
        if resp.StatusCode ≠ statusCode then
          ⟨some ("HTTP request error. Response code: " ++ toString resp.StatusCode), d,
            [.Do req, .ReadAll]⟩
        else
          let contentType := resp.Header.Get "Content-Type"
          if contentType = "" ∨ h.isContentTypeAllowed contentType = false then
            ⟨some ("Content-Type is not a text type. Got: " ++ contentType), d,
              [.Do req, .ReadAll]⟩
          else
            let d1 := { d with body := bytesToString bytes }
            let d2 := { d1 with headers := h.flattenResponseHeaders resp.Header }
            let d3 := { d2 with id := env.newUUID }
            ⟨none, d3, [.Do req, .ReadAll]⟩

/-! ## `resource.go` -/

/-- The closing statement of `httpRequest`:
`if action == "create" { d.SetId(uuid.New().String()) }; return nil`. -/
def finishRequest (env : Env) (d : ResourceData) (action : Phase) (log : List Event) :
    Outcome ResourceData :=
  if action = .create then ⟨none, d.SetId env.newUUID, log⟩ else ⟨none, d, log⟩

/-- Go `httpRequest`. -/
def httpRequest (h : Helpers) (env : Env) (d : ResourceData) (action : Phase) :
    Outcome ResourceData :=
  if action = .update ∧ d.HasChange ("action.0." ++ action.name ++ ".0") = false then
    ⟨none, d, []⟩
  else
    let method := d.method action
    if method.length = 0 then
      let d1 := d.SetAction (h.flattenAction d.action [] Header.empty action)
      if action = .create then ⟨none, d1.SetId env.now.String, []⟩ else ⟨none, d1, []⟩
    else
      let url := d.url action
      let headers := d.requestHeaders action
      let body := d.requestBody action
      let statusCode := d.statusCode action
      match NewRequest env method url with
      | .error err => ⟨some ("Error creating " ++ action.name ++ " request: " ++ err), d, []⟩
      | .ok req0 =>
        let req := setBody (setHeaders req0 headers) body
        match env.clientDo req with
        | .error _ =>
          ⟨some ("Error during making a " ++ action.name ++ " request: " ++ url), d, [.Do req]⟩
        | .ok resp =>
          if action ≠ .delete then
            match resp.Body with
            | .error err =>
              ⟨some ("Error while reading " ++ action.name ++ " response body. " ++ err), d,
                [.Do req, .ReadAll]⟩
            | .ok bytes =>
              if resp.StatusCode ≠ statusCode then
                ⟨some (action.name ++ " HTTP request error. Response code: " ++
                    toString resp.StatusCode ++ "\n\n" ++ bytesToString bytes), d,
                  [.Do req, .ReadAll]⟩
              else
                let contentType := resp.Header.Get "Content-Type"
                if contentType = "" ∨ h.isContentTypeAllowed contentType = false then
                  ⟨some ("Content-Type is not a text type. Got: " ++ contentType), d,
                    [.Do req, .ReadAll]⟩
                else
                  let d1 := d.SetAction (h.flattenAction d.action bytes resp.Header action)
                  finishRequest env d1 action [.Do req, .ReadAll]
          else
            if resp.StatusCode ≠ statusCode then
              ⟨some (action.name ++ " HTTP request error. Response code: " ++
                  toString resp.StatusCode), d, [.Do req]⟩
            else
              finishRequest env d action [.Do req]

/-- Go `resourceCreate`. -/
def resourceCreate (h : Helpers) (env : Env) (d : ResourceData) : Outcome ResourceData :=
  httpRequest h env d .create

/-- Go `resourceUpdate`. -/
def resourceUpdate (h : Helpers) (env : Env) (d : ResourceData) : Outcome ResourceData :=
  httpRequest h env d .update

/-- Go `resourceDelete`. -/
def resourceDelete (h : Helpers) (env : Env) (d : ResourceData) : Outcome ResourceData :=
  httpRequest h env d .delete

/-! ## Concrete helpers, servers and records for the examples -/

/-- Modelled from the spec: `flattenResponseHeaders` is not among the source
files. Section 4.2: all response headers, names preserved, the last value of a
repeated header wins. -/
def specFlattenResponseHeaders (headers : Header) : List (String × String) :=
  headers.entries.map fun p => (p.1, p.2.getLastD "")

/-- Modelled from the spec: `flattenAction` is not among the source files.
Section 4.3: for create and update the body (the bytes as a string) and the
headers are written into that phase's slot and the other slots are untouched;
for delete nothing is written. -/
def specFlattenAction (a : ActionBlock) (body : List UInt8) (headers : Header) :
    Phase → ActionBlock
  | .create =>
    { a with create := a.create.map fun b =>
        { b with body := bytesToString body, headers := specFlattenResponseHeaders headers } }
  | .update =>
    { a with update := a.update.map fun b =>
        { b with body := bytesToString body, headers := specFlattenResponseHeaders headers } }
  | .delete => a

/-- The helpers as the specification describes them. -/
def specHelpers : Helpers :=
  ⟨isContentTypeAllowed, specFlattenAction, specFlattenResponseHeaders⟩

/-- A world in which every request can be built and the server answers every
request with `resp`. -/
def serverEnv (resp : Response) : Env :=
  ⟨fun _ _ => none, fun _ => .ok resp, ⟨2019, 5, 3, 12, 30, 15, 0⟩,
    "6ba7b810-9dad-11d1-80b4-00c04fd430c8"⟩

/-- A world in which the transport fails with the error `e`. -/
def unreachableEnv (e : String) : Env :=
  ⟨fun _ _ => none, fun _ => .error e, ⟨2019, 5, 3, 12, 30, 15, 0⟩,
    "6ba7b810-9dad-11d1-80b4-00c04fd430c8"⟩

/-- The answer `200 OK`, `text/plain`, body `1.0.0`. -/
def okResponse : Response :=
  ⟨200, ⟨[("Content-Type", ["text/plain"])]⟩, .ok (stringToBytes "1.0.0")⟩

/-- The answer `404 Not Found`, `text/plain`, body `oops`. -/
def notFoundResponse : Response :=
  ⟨404, ⟨[("Content-Type", ["text/plain"])]⟩, .ok (stringToBytes "oops")⟩

/-- The answer `200 OK` with a JSON body declared as UTF-16. -/
def utf16Response : Response :=
  ⟨200, ⟨[("Content-Type", ["application/json; charset=UTF-16"])]⟩, .ok (stringToBytes "1.0.0")⟩

/-- The answer `204 No Content`, without `Content-Type`, whose body cannot be
read. -/
def noContentResponse : Response :=
  ⟨204, ⟨[]⟩, .error "unexpected EOF"⟩

/-- The answer `200 OK`, `text/plain`, whose body cannot be read
(`ioutil.ReadAll` fails with `unexpected EOF`). -/
def unreadableOkResponse : Response :=
  ⟨200, ⟨[("Content-Type", ["text/plain"])]⟩, .error "unexpected EOF"⟩

/-- A data source reading `http://127.0.0.1/meta.txt` and expecting 200. -/
def exampleQuery : DataSourceData :=
  ⟨"", "http://127.0.0.1/meta.txt", "GET", [], "", 200, "", []⟩

/-- A resource with a block for each phase; the update block is reported as
changed. -/
def exampleResource : ResourceData :=
  ⟨"", [],
    ⟨some ⟨"http://127.0.0.1/meta.txt", "GET", 200, [], "", "", []⟩,
      some ⟨"http://127.0.0.1/meta.txt", "PUT", 200, [], "hello", "", []⟩,
      some ⟨"http://127.0.0.1/meta.txt", "DELETE", 204, [], "", "", []⟩⟩,
    ["action.0.update.0"]⟩

/-- The request built from `exampleQuery` and from the create block of
`exampleResource` before headers and body are set. -/
def exampleRequest : Request :=
  ⟨"GET", "http://127.0.0.1/meta.txt", Header.empty, none⟩

/-- The text of a transport error as `client.Do` reports it. -/
def refusedError : String :=
  "Get http://127.0.0.1/meta.txt: dial tcp 127.0.0.1:80: connect: connection refused"

/-- A `request_headers` map with two keys that differ only in letter case, in
one of its two iteration orders. -/
def collidingHeaders : List (String × String) :=
  [("authorization", "a"), ("Authorization", "b")]

/-! ## Request headers: what the specification asks of them -/

/-- The header map `H` carries the map `m`: for every entry of `m` it holds
exactly the entry's value under the (canonical form of the) entry's name, and
it holds no name that is not the canonical form of a key of `m`. -/
def carriesExactly (H : Header) (m : List (String × String)) : Prop :=
  (∀ kv ∈ m, H.find (CanonicalMIMEHeaderKey kv.1) = some [kv.2]) ∧
  (∀ k ∈ H.keys, ∃ kv ∈ m, CanonicalMIMEHeaderKey kv.1 = k)

instance carriesExactlyDecidable (H : Header) (m : List (String × String)) :
    Decidable (carriesExactly H m) := by
  unfold carriesExactly
  infer_instance

/-! ## Auxiliary facts -/

theorem length_eq_zero_iff_empty (s : String) : s.length = 0 ↔ s = "" := by
  constructor
  · intro hs
    have hd : s.data = [] := List.length_eq_zero.mp hs
    exact String.ext hd
  · rintro rfl
    rfl

theorem data_infix_middle (a s b : String) : s.data <:+: (a ++ s ++ b).data := by
  refine ⟨a.data, b.data, ?_⟩
  simp [String.data_append]

theorem code_text_infix_tagged (name code body : String) :
    ("HTTP request error. Response code: " ++ code).data <:+:
      (name ++ " HTTP request error. Response code: " ++ code ++ body).data := by
  refine ⟨name.data ++ [' '], body.data, ?_⟩
  have hlit : " HTTP request error. Response code: ".data =
      ' ' :: "HTTP request error. Response code: ".data := by decide
  simp [String.data_append, hlit]

theorem toNat_ofNat_byte (b : UInt8) : (Char.ofNat b.toNat).toNat = b.toNat := by
  have hb : b.toNat < 256 := b.toNat_lt
  have hv : Nat.isValidChar b.toNat := Or.inl (by omega)
  simp [Char.ofNat, hv, Char.toNat, Char.ofNatAux, UInt32.toNat]

theorem byte_of_char_of_byte (b : UInt8) : UInt8.ofNat (Char.ofNat b.toNat).toNat = b := by
  rw [toNat_ofNat_byte]
  cases b with
  | mk v => simp [UInt8.ofNat, UInt8.toNat]

theorem stringToBytes_bytesToString (bytes : List UInt8) :
    stringToBytes (bytesToString bytes) = bytes := by
  induction bytes with
  | nil => rfl
  | cons b bs ih =>
    simp only [stringToBytes, bytesToString, List.map_cons, List.map_map] at ih ⊢
    rw [ih]
    exact congrArg (fun x => x :: bs) (byte_of_char_of_byte b)

theorem append_zone_ne_empty (a : String) : a ++ " +0000 UTC" ≠ "" := by
  intro heq
  have hd := congrArg String.data heq
  simp [String.data_append] at hd

theorem time_text_ne_empty (t : Time) : t.String ≠ "" :=
  append_zone_ne_empty _

theorem lookup_filter_ne {β : Type} (k c : String) (hne : k ≠ c) (l : List (String × β)) :
    List.lookup k (l.filter fun p => p.1 != c) = List.lookup k l := by
  induction l with
  | nil => rfl
  | cons p ps ih =>
    obtain ⟨a, b⟩ := p
    by_cases hac : a = c
    · subst hac
      have hka : (k == a) = false := by simpa using hne
      simp [List.filter_cons, List.lookup_cons, hka, ih]
    · by_cases hka : k = a
      · subst hka
        simp [List.filter_cons, List.lookup_cons, hac]
      · have hka' : (k == a) = false := by simpa using hka
        simp [List.filter_cons, List.lookup_cons, hac, hka', ih]

theorem find_Set (H : Header) (key value k : String) :
    (H.Set key value).find k =
      if k = CanonicalMIMEHeaderKey key then some [value] else H.find k := by
  by_cases hk : k = CanonicalMIMEHeaderKey key
  · subst hk
    simp [Header.Set, Header.find, List.lookup_cons]
  · have hne : (k == CanonicalMIMEHeaderKey key) = false := by simpa using hk
    simp only [Header.Set, Header.find, List.lookup_cons, hne, hk, if_false]
    exact lookup_filter_ne k _ hk H.entries

theorem keys_Set (H : Header) (key value k : String) (hk : k ∈ (H.Set key value).keys) :
    k = CanonicalMIMEHeaderKey key ∨ k ∈ H.keys := by
  simp only [Header.Set, Header.keys, List.map_cons, List.mem_cons, List.mem_map,
    List.mem_filter] at hk ⊢
  rcases hk with hk | ⟨p, ⟨hp, _⟩, rfl⟩
  · exact Or.inl hk
  · exact Or.inr ⟨p, hp, rfl⟩

theorem setHeaders_cons (req : Request) (kv : String × String) (l : List (String × String)) :
    setHeaders req (kv :: l) = setHeaders { req with Header := req.Header.Set kv.1 kv.2 } l :=
  rfl

theorem find_setHeaders_other (l : List (String × String)) (req : Request) (k : String)
    (hk : ∀ kv ∈ l, CanonicalMIMEHeaderKey kv.1 ≠ k) :
    (setHeaders req l).Header.find k = req.Header.find k := by
  induction l generalizing req with
  | nil => rfl
  | cons x xs ih =>
    rw [setHeaders_cons, ih _ (fun kv hkv => hk kv (List.mem_cons_of_mem _ hkv)), find_Set]
    have hx : ¬ k = CanonicalMIMEHeaderKey x.1 := fun h => hk x (List.mem_cons_self _ _) h.symm
    simp [hx]

theorem find_setHeaders_mem (l : List (String × String)) (req : Request)
    (hnd : (l.map fun kv => CanonicalMIMEHeaderKey kv.1).Nodup) (kv : String × String)
    (hkv : kv ∈ l) :
    (setHeaders req l).Header.find (CanonicalMIMEHeaderKey kv.1) = some [kv.2] := by
  induction l generalizing req with
  | nil => cases hkv
  | cons x xs ih =>
    rw [List.map_cons, List.nodup_cons] at hnd
    rw [setHeaders_cons]
    rcases List.mem_cons.mp hkv with rfl | hmem
    · rw [find_setHeaders_other xs _ _ (fun y hy heq =>
        hnd.1 (List.mem_map.mpr ⟨y, hy, heq⟩)), find_Set]
      simp
    · exact ih _ hnd.2 hmem

theorem keys_setHeaders (l : List (String × String)) (req : Request) (k : String)
    (hk : k ∈ (setHeaders req l).Header.keys) :
    k ∈ req.Header.keys ∨ ∃ kv ∈ l, CanonicalMIMEHeaderKey kv.1 = k := by
  induction l generalizing req with
  | nil => exact Or.inl hk
  | cons x xs ih =>
    rw [setHeaders_cons] at hk
    rcases ih _ hk with h1 | ⟨kv, hkv, heq⟩
    · rcases keys_Set _ _ _ _ h1 with h2 | h2
      · exact Or.inr ⟨x, List.mem_cons_self _ _, h2.symm⟩
      · exact Or.inl h2
    · exact Or.inr ⟨kv, List.mem_cons_of_mem _ hkv, heq⟩

theorem setBody_Header (req : Request) (body : String) : (setBody req body).Header = req.Header := by
  unfold setBody
  split <;> rfl

theorem NewRequest_Header (env : Env) (method url : String) (req0 : Request)
    (hreq : NewRequest env method url = .ok req0) : req0.Header = Header.empty := by
  unfold NewRequest at hreq
  split at hreq
  · cases hreq
  · cases hreq
    rfl

theorem built_request_carries (env : Env) (method url body : String)
    (headers : List (String × String)) (req0 : Request)
    (hnd : (headers.map fun kv => CanonicalMIMEHeaderKey kv.1).Nodup)
    (hreq : NewRequest env method url = .ok req0) :
    carriesExactly (setBody (setHeaders req0 headers) body).Header headers := by
  rw [setBody_Header]
  refine ⟨fun kv hkv => find_setHeaders_mem headers req0 hnd kv hkv, fun k hk => ?_⟩
  rcases keys_setHeaders headers req0 k hk with h1 | h1
  · rw [NewRequest_Header env method url req0 hreq] at h1
    cases h1
  · exact h1

theorem dataSourceRead_requests (h : Helpers) (env : Env) (d : DataSourceData)
    (req0 : Request) (hreq : NewRequest env d.method d.url = .ok req0) :
    requestsOf (dataSourceRead h env d).log =
      [setBody (setHeaders req0 d.request_headers) d.request_body] := by
  cases hdo : env.clientDo (setBody (setHeaders req0 d.request_headers) d.request_body) with
  | error e => simp [dataSourceRead, hreq, hdo, requestsOf]
  | ok resp =>
    cases hbody : resp.Body with
    | error e => simp [dataSourceRead, hreq, hdo, hbody, requestsOf]
    | ok bytes =>
      by_cases h4 : resp.StatusCode = d.response_status_code
      · by_cases h6 : resp.Header.Get "Content-Type" = "" ∨
            h.isContentTypeAllowed (resp.Header.Get "Content-Type") = false
        · simp [dataSourceRead, hreq, hdo, hbody, h4, h6, requestsOf]
        · simp [dataSourceRead, hreq, hdo, hbody, h4, h6, requestsOf]
      · simp [dataSourceRead, hreq, hdo, hbody, h4, requestsOf]

theorem httpRequest_requests (h : Helpers) (env : Env) (d : ResourceData) (action : Phase)
    (req0 : Request)
    (hchg : action = .update → d.HasChange "action.0.update.0" = true)
    (hm : d.method action ≠ "")
    (hreq : NewRequest env (d.method action) (d.url action) = .ok req0) :
    requestsOf (httpRequest h env d action).log =
      [setBody (setHeaders req0 (d.requestHeaders action)) (d.requestBody action)] := by
  have h2 : ¬ (d.method action).length = 0 := fun hl =>
    hm ((length_eq_zero_iff_empty _).mp hl)
  cases hdo : env.clientDo
      (setBody (setHeaders req0 (d.requestHeaders action)) (d.requestBody action)) with
  | error e =>
    cases action with
    | create => simp [httpRequest, h2, hreq, hdo, requestsOf]
    | update => simp [httpRequest, h2, hreq, hdo, requestsOf, hchg rfl, Phase.name]
    | delete => simp [httpRequest, h2, hreq, hdo, requestsOf]
  | ok resp =>
    by_cases h4 : resp.StatusCode = d.statusCode action
    · cases action with
      | create =>
        cases hbody : resp.Body with
        | error e => simp [httpRequest, h2, hreq, hdo, hbody, requestsOf]
        | ok bytes =>
          by_cases h6 : resp.Header.Get "Content-Type" = "" ∨
              h.isContentTypeAllowed (resp.Header.Get "Content-Type") = false
          · simp [httpRequest, h2, hreq, hdo, hbody, h4, h6, requestsOf]
          · simp [httpRequest, h2, hreq, hdo, hbody, h4, h6, requestsOf, finishRequest]
      | update =>
        cases hbody : resp.Body with
        | error e => simp [httpRequest, h2, hreq, hdo, hbody, requestsOf, hchg rfl, Phase.name]
        | ok bytes =>
          by_cases h6 : resp.Header.Get "Content-Type" = "" ∨
              h.isContentTypeAllowed (resp.Header.Get "Content-Type") = false
          · simp [httpRequest, h2, hreq, hdo, hbody, h4, h6, requestsOf, hchg rfl, Phase.name]
          · simp [httpRequest, h2, hreq, hdo, hbody, h4, h6, requestsOf, finishRequest,
              hchg rfl, Phase.name]
      | delete => simp [httpRequest, h2, hreq, hdo, h4, requestsOf, finishRequest]
    · cases action with
      | create =>
        cases hbody : resp.Body with
        | error e => simp [httpRequest, h2, hreq, hdo, hbody, requestsOf]
        | ok bytes => simp [httpRequest, h2, hreq, hdo, hbody, h4, requestsOf]
      | update =>
        cases hbody : resp.Body with
        | error e => simp [httpRequest, h2, hreq, hdo, hbody, requestsOf, hchg rfl, Phase.name]
        | ok bytes =>
          simp [httpRequest, h2, hreq, hdo, hbody, h4, requestsOf, hchg rfl, Phase.name]
      | delete => simp [httpRequest, h2, hreq, hdo, h4, requestsOf]

/-! ## Status check -/

/-- C1: whenever the transport call and the body read succeed and the response
status differs from the configured `response_status_code`, `dataSourceRead`
and `httpRequest` (create, update and delete with a non-empty method) return
an error whose text contains `HTTP request error. Response code: ` followed by
the received status, for every response header set (so for every
`Content-Type`, allowed, disallowed or absent). -/
theorem status_mismatch_is_reported :
    (∀ (h : Helpers) (env : Env) (d : DataSourceData) (req0 : Request) (resp : Response)
        (bytes : List UInt8),
        NewRequest env d.method d.url = .ok req0 →
        env.clientDo (setBody (setHeaders req0 d.request_headers) d.request_body) = .ok resp →
        resp.Body = .ok bytes →
        resp.StatusCode ≠ d.response_status_code →
        ∃ msg, (dataSourceRead h env d).err = some msg ∧
          ("HTTP request error. Response code: " ++ toString resp.StatusCode).data <:+: msg.data) ∧
    (∀ (h : Helpers) (env : Env) (d : ResourceData) (action : Phase) (req0 : Request)
        (resp : Response),
        (action = .update → d.HasChange "action.0.update.0" = true) →
        d.method action ≠ "" →
        NewRequest env (d.method action) (d.url action) = .ok req0 →
        env.clientDo (setBody (setHeaders req0 (d.requestHeaders action)) (d.requestBody action))
          = .ok resp →
        (action ≠ .delete → ∃ bytes, resp.Body = .ok bytes) →
        resp.StatusCode ≠ d.statusCode action →
        ∃ msg, (httpRequest h env d action).err = some msg ∧
          ("HTTP request error. Response code: " ++ toString resp.StatusCode).data <:+: msg.data) := by
  constructor
  · intro h env d req0 resp bytes hreq hdo hbody hne
    refine ⟨"HTTP request error. Response code: " ++ toString resp.StatusCode, ?_, List.infix_refl _⟩
    simp [dataSourceRead, hreq, hdo, hbody, hne]
  · intro h env d action req0 resp hchg hm hreq hdo hbody hne
    have hlen : ¬ (d.method action).length = 0 := fun hl =>
      hm ((length_eq_zero_iff_empty _).mp hl)
    cases action with
    | create =>
      obtain ⟨bytes, hb⟩ := hbody (by decide)
      refine ⟨_, ?_, code_text_infix_tagged "create" (toString resp.StatusCode)
        ("\n\n" ++ bytesToString bytes)⟩
      simp [httpRequest, hlen, hreq, hdo, hb, hne, Phase.name, String.append_assoc]
    | update =>
      obtain ⟨bytes, hb⟩ := hbody (by decide)
      have hc := hchg rfl
      refine ⟨_, ?_, code_text_infix_tagged "update" (toString resp.StatusCode)
        ("\n\n" ++ bytesToString bytes)⟩
      simp [httpRequest, hlen, hreq, hdo, hb, hne, Phase.name, String.append_assoc, hc]
    | delete =>
      refine ⟨_, ?_, code_text_infix_tagged "delete" (toString resp.StatusCode) ""⟩
      simp [httpRequest, hlen, hreq, hdo, hne, Phase.name]

/-- The status check at the `404` answer, for the data source and the create
phase. -/
theorem status_mismatch_is_reported_witness :
    notFoundResponse.StatusCode ≠ exampleQuery.response_status_code ∧
    (∃ msg, (dataSourceRead specHelpers (serverEnv notFoundResponse) exampleQuery).err = some msg ∧
      ("HTTP request error. Response code: " ++ toString (404 : Int)).data <:+: msg.data) ∧
    (∃ msg, (httpRequest specHelpers (serverEnv notFoundResponse) exampleResource .create).err
        = some msg ∧
      ("HTTP request error. Response code: " ++ toString (404 : Int)).data <:+: msg.data) :=
  ⟨by decide,
    status_mismatch_is_reported.1 specHelpers (serverEnv notFoundResponse) exampleQuery
      exampleRequest notFoundResponse (stringToBytes "oops") rfl rfl rfl (by decide),
    status_mismatch_is_reported.2 specHelpers (serverEnv notFoundResponse) exampleResource
      .create exampleRequest notFoundResponse (by decide) (by decide) rfl rfl
      (fun _ => ⟨stringToBytes "oops", rfl⟩) (by decide)⟩

/-! ## Content type check -/

/-- C2, at a concrete input: the server answers the expected status 200 with
the non-empty, allowed `Content-Type` `text/plain`, and reading the body fails
with `unexpected EOF`. `dataSourceRead` and the create phase fail all the same,
and their error is the read error, not the content type error: the body is
read before the status and the content type are looked at. -/
theorem allowed_content_type_with_failed_read :
    unreadableOkResponse.StatusCode = exampleQuery.response_status_code ∧
    unreadableOkResponse.StatusCode = exampleResource.statusCode .create ∧
    unreadableOkResponse.Header.Get "Content-Type" = "text/plain" ∧
    specHelpers.isContentTypeAllowed "text/plain" = true ∧
    (dataSourceRead specHelpers (serverEnv unreadableOkResponse) exampleQuery).err =
      some "Error while reading response body. unexpected EOF" ∧
    (httpRequest specHelpers (serverEnv unreadableOkResponse) exampleResource .create).err =
      some "Error while reading create response body. unexpected EOF" := by
  refine ⟨by decide, by decide, by decide, by decide, by decide, by decide⟩

/-- C2, amended: in a non-delete execution (`dataSourceRead`, and `httpRequest`
for create or update with a non-empty method) whose response body was read
successfully and whose status equals the expected one, the operation fails
exactly when the `Content-Type` header is empty or `isContentTypeAllowed`
rejects it; the error is then `Content-Type is not a text type. Got: `
followed by the header value, and the record (body, headers, identifier) is
left as it was. -/
theorem content_type_gate :
    (∀ (h : Helpers) (env : Env) (d : DataSourceData) (req0 : Request) (resp : Response)
        (bytes : List UInt8),
        NewRequest env d.method d.url = .ok req0 →
        env.clientDo (setBody (setHeaders req0 d.request_headers) d.request_body) = .ok resp →
        resp.Body = .ok bytes →
        resp.StatusCode = d.response_status_code →
        ((dataSourceRead h env d).err ≠ none ↔
          (resp.Header.Get "Content-Type" = "" ∨
            h.isContentTypeAllowed (resp.Header.Get "Content-Type") = false)) ∧
        ((dataSourceRead h env d).err ≠ none →
          (dataSourceRead h env d).err =
            some ("Content-Type is not a text type. Got: " ++ resp.Header.Get "Content-Type") ∧
          (dataSourceRead h env d).d = d)) ∧
    (∀ (h : Helpers) (env : Env) (d : ResourceData) (action : Phase) (req0 : Request)
        (resp : Response) (bytes : List UInt8),
        action ≠ .delete →
        (action = .update → d.HasChange "action.0.update.0" = true) →
        d.method action ≠ "" →
        NewRequest env (d.method action) (d.url action) = .ok req0 →
        env.clientDo (setBody (setHeaders req0 (d.requestHeaders action)) (d.requestBody action))
          = .ok resp →
        resp.Body = .ok bytes →
        resp.StatusCode = d.statusCode action →
        ((httpRequest h env d action).err ≠ none ↔
          (resp.Header.Get "Content-Type" = "" ∨
            h.isContentTypeAllowed (resp.Header.Get "Content-Type") = false)) ∧
        ((httpRequest h env d action).err ≠ none →
          (httpRequest h env d action).err =
            some ("Content-Type is not a text type. Got: " ++ resp.Header.Get "Content-Type") ∧
          (httpRequest h env d action).d = d)) := by
  constructor
  · intro h env d req0 resp bytes hreq hdo hbody heq
    by_cases hct : resp.Header.Get "Content-Type" = "" ∨
        h.isContentTypeAllowed (resp.Header.Get "Content-Type") = false
    · simp [dataSourceRead, hreq, hdo, hbody, heq, hct]
    · simp [dataSourceRead, hreq, hdo, hbody, heq, hct]
  · intro h env d action req0 resp bytes hnd hchg hm hreq hdo hbody heq
    have hlen : ¬ (d.method action).length = 0 := fun hl =>
      hm ((length_eq_zero_iff_empty _).mp hl)
    by_cases hct : resp.Header.Get "Content-Type" = "" ∨
        h.isContentTypeAllowed (resp.Header.Get "Content-Type") = false
    · cases action with
      | create => simp [httpRequest, hlen, hreq, hdo, hbody, heq, hct]
      | update => simp [httpRequest, hlen, hreq, hdo, hbody, heq, hct, hchg rfl, Phase.name]
      | delete => exact absurd rfl hnd
    · cases action with
      | create => simp [httpRequest, hlen, hreq, hdo, hbody, heq, hct, finishRequest]
      | update =>
        simp [httpRequest, hlen, hreq, hdo, hbody, heq, hct, hchg rfl, Phase.name, finishRequest]
      | delete => exact absurd rfl hnd

/-- The content type check at a JSON answer declared as UTF-16, with the
classifier of the specification. -/
theorem content_type_gate_witness :
    utf16Response.Header.Get "Content-Type" = "application/json; charset=UTF-16" ∧
    specHelpers.isContentTypeAllowed "application/json; charset=UTF-16" = false ∧
    (dataSourceRead specHelpers (serverEnv utf16Response) exampleQuery).err =
      some "Content-Type is not a text type. Got: application/json; charset=UTF-16" ∧
    (dataSourceRead specHelpers (serverEnv utf16Response) exampleQuery).d = exampleQuery ∧
    (httpRequest specHelpers (serverEnv utf16Response) exampleResource .create).err =
      some "Content-Type is not a text type. Got: application/json; charset=UTF-16" ∧
    (httpRequest specHelpers (serverEnv utf16Response) exampleResource .create).d =
      exampleResource := by
  have hget : utf16Response.Header.Get "Content-Type" = "application/json; charset=UTF-16" := by
    decide
  have hrej : specHelpers.isContentTypeAllowed "application/json; charset=UTF-16" = false := by
    decide
  have hq := content_type_gate.1 specHelpers (serverEnv utf16Response) exampleQuery
    exampleRequest utf16Response (stringToBytes "1.0.0") rfl rfl rfl (by decide)
  have hr := content_type_gate.2 specHelpers (serverEnv utf16Response) exampleResource .create
    exampleRequest utf16Response (stringToBytes "1.0.0") (by decide) (by decide) (by decide)
    rfl rfl rfl (by decide)
  rw [hget] at hq hr
  have hq2 := hq.2 (hq.1.mpr (Or.inr hrej))
  have hr2 := hr.2 (hr.1.mpr (Or.inr hrej))
  exact ⟨hget, hrej, hq2.1, hq2.2, hr2.1, hr2.2⟩

/-! ## Accepted responses -/

/-- C3, at a concrete input: the server answers the expected status 200 with
the non-empty, allowed `Content-Type` `text/plain`, and reading the body fails
with `unexpected EOF`. Neither `dataSourceRead` nor the update phase succeeds,
and nothing is stored: the record is the one given. -/
theorem failed_read_stores_nothing :
    unreadableOkResponse.StatusCode = exampleQuery.response_status_code ∧
    unreadableOkResponse.StatusCode = exampleResource.statusCode .update ∧
    unreadableOkResponse.Header.Get "Content-Type" ≠ "" ∧
    specHelpers.isContentTypeAllowed
      (unreadableOkResponse.Header.Get "Content-Type") = true ∧
    (dataSourceRead specHelpers (serverEnv unreadableOkResponse) exampleQuery).err ≠ none ∧
    (dataSourceRead specHelpers (serverEnv unreadableOkResponse) exampleQuery).d =
      exampleQuery ∧
    (httpRequest specHelpers (serverEnv unreadableOkResponse) exampleResource .update).err ≠
      none ∧
    (httpRequest specHelpers (serverEnv unreadableOkResponse) exampleResource .update).d =
      exampleResource := by
  refine ⟨by decide, by decide, by decide, by decide, by decide, by decide, by decide,
    by decide⟩

/-- C3, amended: in a non-delete execution whose response body was read
successfully, whose status equals the expected one and whose `Content-Type` is
non-empty and allowed, the operation succeeds; `dataSourceRead` stores in
`body` the string conversion of exactly the bytes received (converting the
stored string back gives the same bytes), and `httpRequest` stores as `action`
the result of `flattenAction` on those same bytes, the response headers and
the executed phase. -/
theorem accepted_body_is_stored_unchanged :
    (∀ (h : Helpers) (env : Env) (d : DataSourceData) (req0 : Request) (resp : Response)
        (bytes : List UInt8),
        NewRequest env d.method d.url = .ok req0 →
        env.clientDo (setBody (setHeaders req0 d.request_headers) d.request_body) = .ok resp →
        resp.Body = .ok bytes →
        resp.StatusCode = d.response_status_code →
        resp.Header.Get "Content-Type" ≠ "" →
        h.isContentTypeAllowed (resp.Header.Get "Content-Type") = true →
        (dataSourceRead h env d).err = none ∧
        (dataSourceRead h env d).d.body = bytesToString bytes ∧
        stringToBytes (dataSourceRead h env d).d.body = bytes) ∧
    (∀ (h : Helpers) (env : Env) (d : ResourceData) (action : Phase) (req0 : Request)
        (resp : Response) (bytes : List UInt8),
        action ≠ .delete →
        (action = .update → d.HasChange "action.0.update.0" = true) →
        d.method action ≠ "" →
        NewRequest env (d.method action) (d.url action) = .ok req0 →
        env.clientDo (setBody (setHeaders req0 (d.requestHeaders action)) (d.requestBody action))
          = .ok resp →
        resp.Body = .ok bytes →
        resp.StatusCode = d.statusCode action →
        resp.Header.Get "Content-Type" ≠ "" →
        h.isContentTypeAllowed (resp.Header.Get "Content-Type") = true →
        (httpRequest h env d action).err = none ∧
        (httpRequest h env d action).d.action =
          h.flattenAction d.action bytes resp.Header action) := by
  constructor
  · intro h env d req0 resp bytes hreq hdo hbody heq hne hok
    have hbody' : (dataSourceRead h env d).d.body = bytesToString bytes := by
      simp [dataSourceRead, hreq, hdo, hbody, heq, hne, hok]
    refine ⟨?_, hbody', ?_⟩
    · simp [dataSourceRead, hreq, hdo, hbody, heq, hne, hok]
    · rw [hbody']
      exact stringToBytes_bytesToString bytes
  · intro h env d action req0 resp bytes hnd hchg hm hreq hdo hbody heq hne hok
    have hlen : ¬ (d.method action).length = 0 := fun hl =>
      hm ((length_eq_zero_iff_empty _).mp hl)
    cases action with
    | create =>
      simp [httpRequest, hlen, hreq, hdo, hbody, heq, hne, hok, finishRequest,
        ResourceData.SetAction, ResourceData.SetId]
    | update =>
      simp [httpRequest, hlen, hreq, hdo, hbody, heq, hne, hok, finishRequest,
        ResourceData.SetAction, hchg rfl, Phase.name]
    | delete => exact absurd rfl hnd

/-- The accepted answer `1.0.0`, for the data source and the create phase. -/
theorem accepted_body_is_stored_unchanged_witness :
    okResponse.Body = .ok (stringToBytes "1.0.0") ∧
    (dataSourceRead specHelpers (serverEnv okResponse) exampleQuery).err = none ∧
    (dataSourceRead specHelpers (serverEnv okResponse) exampleQuery).d.body = "1.0.0" ∧
    (httpRequest specHelpers (serverEnv okResponse) exampleResource .create).err = none ∧
    ((httpRequest specHelpers (serverEnv okResponse) exampleResource .create).d.action.create.map
      fun b => b.body) = some "1.0.0" := by
  have hq := accepted_body_is_stored_unchanged.1 specHelpers (serverEnv okResponse) exampleQuery
    exampleRequest okResponse (stringToBytes "1.0.0") rfl rfl rfl (by decide) (by decide)
    (by decide)
  have hr := accepted_body_is_stored_unchanged.2 specHelpers (serverEnv okResponse)
    exampleResource .create exampleRequest okResponse (stringToBytes "1.0.0") (by decide)
    (by decide) (by decide) rfl rfl rfl (by decide) (by decide) (by decide)
  refine ⟨rfl, hq.1, ?_, hr.1, ?_⟩
  · rw [hq.2.1]
    decide
  · rw [hr.2]
    decide

/-! ## Lifecycle phases -/

/-- C4: when the host reports no change under `action.0.update.0`,
`httpRequest` with action `update` returns success, returns the record it was
given (identifier, triggers and every phase block) and performs no effect at
all, so no HTTP request, whatever the update block holds. -/
theorem update_without_change_is_noop (h : Helpers) (env : Env) (d : ResourceData)
    (hc : d.HasChange "action.0.update.0" = false) :
    (httpRequest h env d .update).err = none ∧
    (httpRequest h env d .update).d = d ∧
    (httpRequest h env d .update).log = [] ∧
    requestsOf (httpRequest h env d .update).log = [] := by
  simp [httpRequest, Phase.name, hc, requestsOf]

/-- An update of the example resource with no reported change. -/
theorem update_without_change_is_noop_witness :
    ({ exampleResource with changed := [] } : ResourceData).HasChange "action.0.update.0" = false ∧
    (httpRequest specHelpers (serverEnv okResponse) { exampleResource with changed := [] }
      .update).err = none ∧
    (httpRequest specHelpers (serverEnv okResponse) { exampleResource with changed := [] }
      .update).d = { exampleResource with changed := [] } ∧
    requestsOf (httpRequest specHelpers (serverEnv okResponse)
      { exampleResource with changed := [] } .update).log = [] :=
  have hw := update_without_change_is_noop specHelpers (serverEnv okResponse)
    { exampleResource with changed := [] } (by decide)
  ⟨by decide, hw.1, hw.2.1, hw.2.2.2⟩

/-- C5: in the delete phase with a non-empty method and a successful transport
call, `httpRequest` succeeds exactly when the response status equals the
configured `response_status_code`; the body is never read, and the whole
outcome is the same for any other helpers and any other response with the same
status, whatever its body and its `Content-Type`. -/
theorem delete_checks_status_only (h : Helpers) (env : Env) (d : ResourceData)
    (req0 : Request) (resp : Response)
    (hm : d.method .delete ≠ "")
    (hreq : NewRequest env (d.method .delete) (d.url .delete) = .ok req0)
    (hdo : env.clientDo
      (setBody (setHeaders req0 (d.requestHeaders .delete)) (d.requestBody .delete)) = .ok resp) :
    ((httpRequest h env d .delete).err = none ↔ resp.StatusCode = d.statusCode .delete) ∧
    Event.ReadAll ∉ (httpRequest h env d .delete).log ∧
    (∀ (h' : Helpers) (env' : Env) (resp' : Response),
      NewRequest env' (d.method .delete) (d.url .delete) = .ok req0 →
      env'.clientDo
        (setBody (setHeaders req0 (d.requestHeaders .delete)) (d.requestBody .delete))
          = .ok resp' →
      resp'.StatusCode = resp.StatusCode →
      (httpRequest h' env' d .delete).err = (httpRequest h env d .delete).err ∧
      (httpRequest h' env' d .delete).d = (httpRequest h env d .delete).d ∧
      (httpRequest h' env' d .delete).log = (httpRequest h env d .delete).log) := by
  have hlen : ¬ (d.method .delete).length = 0 := fun hl =>
    hm ((length_eq_zero_iff_empty _).mp hl)
  refine ⟨?_, ?_, ?_⟩
  · by_cases hs : resp.StatusCode = d.statusCode .delete
    · simp [httpRequest, hlen, hreq, hdo, hs, finishRequest]
    · simp [httpRequest, hlen, hreq, hdo, hs, finishRequest]
  · by_cases hs : resp.StatusCode = d.statusCode .delete
    · simp [httpRequest, hlen, hreq, hdo, hs, finishRequest]
    · simp [httpRequest, hlen, hreq, hdo, hs, finishRequest]
  · intro h' env' resp' hreq' hdo' hst
    by_cases hs : resp.StatusCode = d.statusCode .delete
    · have hs' : resp'.StatusCode = d.statusCode .delete := hst.trans hs
      simp [httpRequest, hlen, hreq, hdo, hreq', hdo', hs, hs', finishRequest]
    · have hs' : ¬ resp'.StatusCode = d.statusCode .delete := fun hc => hs (hst.symm.trans hc)
      simp [httpRequest, hlen, hreq, hdo, hreq', hdo', hs, hs', finishRequest, hst]

/-- A delete answered by `204` without `Content-Type` and with an unreadable
body. -/
theorem delete_checks_status_only_witness :
    noContentResponse.Header.Get "Content-Type" = "" ∧
    (httpRequest specHelpers (serverEnv noContentResponse) exampleResource .delete).err = none ∧
    Event.ReadAll ∉
      (httpRequest specHelpers (serverEnv noContentResponse) exampleResource .delete).log :=
  have hw := delete_checks_status_only specHelpers (serverEnv noContentResponse) exampleResource
    ⟨"DELETE", "http://127.0.0.1/meta.txt", Header.empty, none⟩ noContentResponse
    (by decide) rfl rfl
  ⟨by decide, hw.1.mpr (by decide), hw.2.1⟩

/-- C6: when the create phase has an empty method, `httpRequest` with action
`create` returns success, performs no effect (no HTTP request), stores as
`action` the result of `flattenAction` on a zero-length body and an empty
header set for the create phase, and sets the identifier to the rendering of
the current UTC time, which is a non-empty string. -/
theorem create_without_method (h : Helpers) (env : Env) (d : ResourceData)
    (hm : d.method .create = "") :
    (httpRequest h env d .create).err = none ∧
    (httpRequest h env d .create).log = [] ∧
    requestsOf (httpRequest h env d .create).log = [] ∧
    (httpRequest h env d .create).d.action =
      h.flattenAction d.action [] Header.empty .create ∧
    ([] : List UInt8).length = 0 ∧ Header.empty.keys = [] ∧
    (httpRequest h env d .create).d.id = env.now.String ∧
    (httpRequest h env d .create).d.id ≠ "" := by
  have hlen : (d.method .create).length = 0 := (length_eq_zero_iff_empty _).mpr hm
  have hid : (httpRequest h env d .create).d.id = env.now.String := by
    simp [httpRequest, hlen, ResourceData.SetAction, ResourceData.SetId]
  refine ⟨?_, ?_, ?_, ?_, rfl, rfl, hid, ?_⟩
  · simp [httpRequest, hlen]
  · simp [httpRequest, hlen]
  · simp [httpRequest, hlen, requestsOf]
  · simp [httpRequest, hlen, ResourceData.SetAction, ResourceData.SetId]
  · rw [hid]
    exact time_text_ne_empty env.now

/-- A create of a resource without any phase block. -/
theorem create_without_method_witness :
    (httpRequest specHelpers (serverEnv okResponse)
      { exampleResource with action := ⟨none, none, none⟩ } .create).err = none ∧
    requestsOf (httpRequest specHelpers (serverEnv okResponse)
      { exampleResource with action := ⟨none, none, none⟩ } .create).log = [] ∧
    (httpRequest specHelpers (serverEnv okResponse)
      { exampleResource with action := ⟨none, none, none⟩ } .create).d.id =
        "2019-05-03 12:30:15 +0000 UTC" := by
  have hw := create_without_method specHelpers (serverEnv okResponse)
    { exampleResource with action := ⟨none, none, none⟩ } rfl
  refine ⟨hw.1, hw.2.2.1, ?_⟩
  rw [hw.2.2.2.2.2.2.1]
  decide

/-- C7: for every phase and every input, if `httpRequest` returns an error
(request construction, transport, body read, status mismatch or content type)
the record it leaves is the record it was given: no `d.Set` and no `d.SetId`
has taken effect. -/
theorem failure_leaves_record (h : Helpers) (env : Env) (d : ResourceData) (action : Phase)
    (he : (httpRequest h env d action).err ≠ none) :
    (httpRequest h env d action).d = d := by
  cases action with
  | create =>
    by_cases h2 : (d.method .create).length = 0
    · exact absurd (by simp [httpRequest, h2]) he
    cases hreq : NewRequest env (d.method .create) (d.url .create) with
    | error e => simp [httpRequest, h2, hreq]
    | ok req0 =>
      cases hdo : env.clientDo
          (setBody (setHeaders req0 (d.requestHeaders .create)) (d.requestBody .create)) with
      | error e => simp [httpRequest, h2, hreq, hdo]
      | ok resp =>
        cases hbody : resp.Body with
        | error e => simp [httpRequest, h2, hreq, hdo, hbody]
        | ok bytes =>
          by_cases h4 : resp.StatusCode = d.statusCode .create
          · by_cases h6 : resp.Header.Get "Content-Type" = "" ∨
                h.isContentTypeAllowed (resp.Header.Get "Content-Type") = false
            · simp [httpRequest, h2, hreq, hdo, hbody, h4, h6]
            · exact absurd
                (by simp [httpRequest, h2, hreq, hdo, hbody, h4, h6, finishRequest]) he
          · simp [httpRequest, h2, hreq, hdo, hbody, h4]
  | update =>
    by_cases h1 : d.HasChange "action.0.update.0" = false
    · simp [httpRequest, Phase.name, h1]
    by_cases h2 : (d.method .update).length = 0
    · exact absurd (by simp [httpRequest, Phase.name, h1, h2]) he
    cases hreq : NewRequest env (d.method .update) (d.url .update) with
    | error e => simp [httpRequest, Phase.name, h1, h2, hreq]
    | ok req0 =>
      cases hdo : env.clientDo
          (setBody (setHeaders req0 (d.requestHeaders .update)) (d.requestBody .update)) with
      | error e => simp [httpRequest, Phase.name, h1, h2, hreq, hdo]
      | ok resp =>
        cases hbody : resp.Body with
        | error e => simp [httpRequest, Phase.name, h1, h2, hreq, hdo, hbody]
        | ok bytes =>
          by_cases h4 : resp.StatusCode = d.statusCode .update
          · by_cases h6 : resp.Header.Get "Content-Type" = "" ∨
                h.isContentTypeAllowed (resp.Header.Get "Content-Type") = false
            · simp [httpRequest, Phase.name, h1, h2, hreq, hdo, hbody, h4, h6]
            · exact absurd
                (by simp [httpRequest, Phase.name, h1, h2, hreq, hdo, hbody, h4, h6,
                  finishRequest]) he
          · simp [httpRequest, Phase.name, h1, h2, hreq, hdo, hbody, h4]
  | delete =>
    by_cases h2 : (d.method .delete).length = 0
    · exact absurd (by simp [httpRequest, h2]) he
    cases hreq : NewRequest env (d.method .delete) (d.url .delete) with
    | error e => simp [httpRequest, h2, hreq]
    | ok req0 =>
      cases hdo : env.clientDo
          (setBody (setHeaders req0 (d.requestHeaders .delete)) (d.requestBody .delete)) with
      | error e => simp [httpRequest, h2, hreq, hdo]
      | ok resp =>
        by_cases h4 : resp.StatusCode = d.statusCode .delete
        · exact absurd (by simp [httpRequest, h2, hreq, hdo, h4, finishRequest]) he
        · simp [httpRequest, h2, hreq, hdo, h4]

/-- An update answered by `404`. -/
theorem failure_leaves_record_witness :
    (httpRequest specHelpers (serverEnv notFoundResponse) exampleResource .update).err =
      some "update HTTP request error. Response code: 404\n\noops" ∧
    (httpRequest specHelpers (serverEnv notFoundResponse) exampleResource .update).d =
      exampleResource :=
  ⟨by decide,
    failure_leaves_record specHelpers (serverEnv notFoundResponse) exampleResource .update
      (by decide)⟩

/-! ## Transport failure -/

/-- C8: at a transport failure `dataSourceRead` reports the text of the
underlying error, while `httpRequest` reports the URL in its place: with the
transport error `refusedError`, the create phase fails with
`Error during making a create request: http://127.0.0.1/meta.txt`, a text
that does not contain the underlying error. -/
theorem transport_error_text_is_dropped :
    (unreachableEnv refusedError).clientDo exampleRequest = .error refusedError ∧
    (httpRequest specHelpers (unreachableEnv refusedError) exampleResource .create).err =
      some "Error during making a create request: http://127.0.0.1/meta.txt" ∧
    ¬ (refusedError.data <:+:
      "Error during making a create request: http://127.0.0.1/meta.txt".data) ∧
    (dataSourceRead specHelpers (unreachableEnv refusedError) exampleQuery).err =
      some ("Error making a request: " ++ refusedError) := by
  refine ⟨rfl, by decide, ?_, by decide⟩
  intro hin
  have hle := hin.length_le
  revert hle
  decide

/-! ## Status mismatch: what the error tells -/

/-- C9, at a concrete input: the server answers 404 with body `oops` where 200
is expected. The error of `dataSourceRead` contains neither the expected
status nor the body text, and the error of the create phase does not contain
the expected status. -/
theorem mismatch_error_omits_expected_status :
    (dataSourceRead specHelpers (serverEnv notFoundResponse) exampleQuery).err =
      some "HTTP request error. Response code: 404" ∧
    ¬ ("200".data <:+: "HTTP request error. Response code: 404".data) ∧
    ¬ ("oops".data <:+: "HTTP request error. Response code: 404".data) ∧
    (httpRequest specHelpers (serverEnv notFoundResponse) exampleResource .create).err =
      some "create HTTP request error. Response code: 404\n\noops" ∧
    ¬ ("200".data <:+: "create HTTP request error. Response code: 404\n\noops".data) := by
  refine ⟨by decide, by decide, by decide, by decide, by decide⟩

/-- C9, amended: when the response status differs from the expected one and,
in the non-delete executions (`dataSourceRead`, create, update), the response
body was read successfully, the error of `dataSourceRead` begins with
`HTTP request error. Response code: ` and the received status; the error of
the create and update phases is the phase name,
` HTTP request error. Response code: `, the received status, an empty line and
the response body text, and nothing else; the error of the delete phase is the
phase name, the same text and the received status, without any body, and the
delete phase does not read the response body (so no condition on the read is
needed there). The expected status is no part of the create, update and
delete texts. -/
theorem mismatch_error_text :
    (∀ (h : Helpers) (env : Env) (d : DataSourceData) (req0 : Request) (resp : Response)
        (bytes : List UInt8),
        NewRequest env d.method d.url = .ok req0 →
        env.clientDo (setBody (setHeaders req0 d.request_headers) d.request_body) = .ok resp →
        resp.Body = .ok bytes →
        resp.StatusCode ≠ d.response_status_code →
        ∃ rest, (dataSourceRead h env d).err =
          some ("HTTP request error. Response code: " ++ toString resp.StatusCode ++ rest)) ∧
    (∀ (h : Helpers) (env : Env) (d : ResourceData) (action : Phase) (req0 : Request)
        (resp : Response) (bytes : List UInt8),
        action ≠ .delete →
        (action = .update → d.HasChange "action.0.update.0" = true) →
        d.method action ≠ "" →
        NewRequest env (d.method action) (d.url action) = .ok req0 →
        env.clientDo (setBody (setHeaders req0 (d.requestHeaders action)) (d.requestBody action))
          = .ok resp →
        resp.Body = .ok bytes →
        resp.StatusCode ≠ d.statusCode action →
        (httpRequest h env d action).err =
          some (action.name ++ " HTTP request error. Response code: " ++
            toString resp.StatusCode ++ "\n\n" ++ bytesToString bytes) ∧
        (bytesToString bytes).data <:+:
          (action.name ++ " HTTP request error. Response code: " ++
            toString resp.StatusCode ++ "\n\n" ++ bytesToString bytes).data) ∧
    (∀ (h : Helpers) (env : Env) (d : ResourceData) (req0 : Request) (resp : Response),
        d.method .delete ≠ "" →
        NewRequest env (d.method .delete) (d.url .delete) = .ok req0 →
        env.clientDo
          (setBody (setHeaders req0 (d.requestHeaders .delete)) (d.requestBody .delete))
            = .ok resp →
        resp.StatusCode ≠ d.statusCode .delete →
        (httpRequest h env d .delete).err =
          some ("delete HTTP request error. Response code: " ++ toString resp.StatusCode) ∧
        Event.ReadAll ∉ (httpRequest h env d .delete).log) := by
  refine ⟨?_, ?_, ?_⟩
  · intro h env d req0 resp bytes hreq hdo hbody hne
    refine ⟨"", ?_⟩
    simp [dataSourceRead, hreq, hdo, hbody, hne]
  · intro h env d action req0 resp bytes hnd hchg hm hreq hdo hbody hne
    have hlen : ¬ (d.method action).length = 0 := fun hl =>
      hm ((length_eq_zero_iff_empty _).mp hl)
    refine ⟨?_, ⟨(action.name ++ " HTTP request error. Response code: " ++
      toString resp.StatusCode ++ "\n\n").data, [], by simp [String.data_append]⟩⟩
    cases action with
    | create => simp [httpRequest, hlen, hreq, hdo, hbody, hne]
    | update => simp [httpRequest, hlen, hreq, hdo, hbody, hne, hchg rfl, Phase.name]
    | delete => exact absurd rfl hnd
  · intro h env d req0 resp hm hreq hdo hne
    have hlen : ¬ (d.method .delete).length = 0 := fun hl =>
      hm ((length_eq_zero_iff_empty _).mp hl)
    simp [httpRequest, hlen, hreq, hdo, hne, Phase.name]

/-- The error texts at the `404` answer. -/
theorem mismatch_error_text_witness :
    (∃ rest, (dataSourceRead specHelpers (serverEnv notFoundResponse) exampleQuery).err =
      some ("HTTP request error. Response code: " ++ toString (404 : Int) ++ rest)) ∧
    (httpRequest specHelpers (serverEnv notFoundResponse) exampleResource .update).err =
      some (Phase.update.name ++ " HTTP request error. Response code: " ++
        toString (404 : Int) ++ "\n\n" ++ bytesToString (stringToBytes "oops")) ∧
    (httpRequest specHelpers (serverEnv notFoundResponse) exampleResource .delete).err =
      some ("delete HTTP request error. Response code: " ++ toString (404 : Int)) ∧
    Event.ReadAll ∉
      (httpRequest specHelpers (serverEnv notFoundResponse) exampleResource .delete).log :=
  have hq := mismatch_error_text.1 specHelpers (serverEnv notFoundResponse) exampleQuery
    exampleRequest notFoundResponse (stringToBytes "oops") rfl rfl rfl (by decide)
  have hu := mismatch_error_text.2.1 specHelpers (serverEnv notFoundResponse) exampleResource
    .update ⟨"PUT", "http://127.0.0.1/meta.txt", Header.empty, none⟩ notFoundResponse
    (stringToBytes "oops") (by decide) (by decide) (by decide) rfl rfl rfl (by decide)
  have hd := mismatch_error_text.2.2 specHelpers (serverEnv notFoundResponse) exampleResource
    ⟨"DELETE", "http://127.0.0.1/meta.txt", Header.empty, none⟩ notFoundResponse
    (by decide) rfl rfl (by decide)
  ⟨hq, hu.1, hd.1, hd.2⟩

/-! ## Request headers -/

/-- C10, at a concrete input: a `request_headers` map with the keys
`authorization` (value `a`) and `Authorization` (value `b`). In either
iteration order the request built by `dataSourceRead` and by `httpRequest`
holds a single header `Authorization` with the value applied last, so it does
not carry the value of every key of the map. -/
theorem colliding_header_names_lose_a_value :
    (collidingHeaders.map Prod.fst).Nodup ∧
    requestsOf (dataSourceRead specHelpers (serverEnv okResponse)
        { exampleQuery with request_headers := collidingHeaders }).log =
      [⟨"GET", "http://127.0.0.1/meta.txt", ⟨[("Authorization", ["b"])]⟩, none⟩] ∧
    ¬ carriesExactly ⟨[("Authorization", ["b"])]⟩ collidingHeaders ∧
    requestsOf (dataSourceRead specHelpers (serverEnv okResponse)
        { exampleQuery with request_headers := collidingHeaders.reverse }).log =
      [⟨"GET", "http://127.0.0.1/meta.txt", ⟨[("Authorization", ["a"])]⟩, none⟩] ∧
    ¬ carriesExactly ⟨[("Authorization", ["a"])]⟩ collidingHeaders.reverse ∧
    requestsOf (httpRequest specHelpers (serverEnv okResponse)
        { exampleResource with action := { exampleResource.action with
            create := some ⟨"http://127.0.0.1/meta.txt", "GET", 200, collidingHeaders, "", "",
              []⟩ } } .create).log =
      [⟨"GET", "http://127.0.0.1/meta.txt", ⟨[("Authorization", ["b"])]⟩, none⟩] := by
  refine ⟨by decide, by decide, by decide, by decide, by decide, by decide⟩

/-- C10, amended: for every `request_headers` map whose keys stay pairwise
distinct under the canonicalisation of `Header.Set`, in every iteration
order, the one request handed to `client.Do` by `dataSourceRead` and by
`httpRequest` holds, for every key of the map, exactly the map's value under
the canonical form of that key, and holds no other header. -/
theorem distinct_header_names_are_all_carried :
    (∀ (h : Helpers) (env : Env) (d : DataSourceData) (req0 : Request),
        (d.request_headers.map fun kv => CanonicalMIMEHeaderKey kv.1).Nodup →
        NewRequest env d.method d.url = .ok req0 →
        ∃ req, requestsOf (dataSourceRead h env d).log = [req] ∧
          carriesExactly req.Header d.request_headers) ∧
    (∀ (h : Helpers) (env : Env) (d : ResourceData) (action : Phase) (req0 : Request),
        ((d.requestHeaders action).map fun kv => CanonicalMIMEHeaderKey kv.1).Nodup →
        (action = .update → d.HasChange "action.0.update.0" = true) →
        d.method action ≠ "" →
        NewRequest env (d.method action) (d.url action) = .ok req0 →
        ∃ req, requestsOf (httpRequest h env d action).log = [req] ∧
          carriesExactly req.Header (d.requestHeaders action)) := by
  constructor
  · intro h env d req0 hnd hreq
    exact ⟨_, dataSourceRead_requests h env d req0 hreq,
      built_request_carries env d.method d.url d.request_body d.request_headers req0 hnd hreq⟩
  · intro h env d action req0 hnd hchg hm hreq
    exact ⟨_, httpRequest_requests h env d action req0 hchg hm hreq,
      built_request_carries env (d.method action) (d.url action) (d.requestBody action)
        (d.requestHeaders action) req0 hnd hreq⟩

/-- Two headers with distinct canonical names. -/
theorem distinct_header_names_are_all_carried_witness :
    (∃ req, requestsOf (dataSourceRead specHelpers (serverEnv okResponse)
        { exampleQuery with
          request_headers := [("authorization", "Zm9vOmJhcg=="), ("x-trace", "1")] }).log = [req] ∧
      carriesExactly req.Header [("authorization", "Zm9vOmJhcg=="), ("x-trace", "1")]) ∧
    (∃ req, requestsOf (httpRequest specHelpers (serverEnv okResponse)
        { exampleResource with action := { exampleResource.action with
            create := some ⟨"http://127.0.0.1/meta.txt", "GET", 200,
              [("authorization", "Zm9vOmJhcg=="), ("x-trace", "1")], "", "", []⟩ } }
        .create).log = [req] ∧
      carriesExactly req.Header [("authorization", "Zm9vOmJhcg=="), ("x-trace", "1")]) :=
  ⟨distinct_header_names_are_all_carried.1 specHelpers (serverEnv okResponse)
      { exampleQuery with
        request_headers := [("authorization", "Zm9vOmJhcg=="), ("x-trace", "1")] }
      exampleRequest (by decide) rfl,
    distinct_header_names_are_all_carried.2 specHelpers (serverEnv okResponse)
      { exampleResource with action := { exampleResource.action with
          create := some ⟨"http://127.0.0.1/meta.txt", "GET", 200,
            [("authorization", "Zm9vOmJhcg=="), ("x-trace", "1")], "", "", []⟩ } }
      .create exampleRequest (by decide) (by decide) (by decide) rfl⟩

end TerraformHttp
